import Mathlib

/-!
Shallow embedding of the waldur_site_agent_openstack plugin (OpenStack
Keystone backend for waldur-site-agent).

The identity service (Keystone) is modelled as an explicit state `KState`
holding the names of domains, projects, users and roles and the list of
role assignments; one flat namespace stands for the single configured
domain used throughout the source.  Python exceptions are modelled by the
`PyError` type; an operation that can raise returns
`Except (PyError × KState) (α × KState)`, the state being threaded through
both channels because mutations performed before a raise persist.
Unexpected failures of individual underlying API calls (network faults,
forced per-item failures) are injected through explicit boolean oracles
(`err`, `grantFails`, `revokeFails`), mirroring where the source wraps a
call in try/except.
-/

/-- Characters accepted by the sanitizer, from the regex
`[^a-zA-Z0-9_\-\.]` in `utils.sanitize_for_openstack` (ASCII classes). -/
def isOpenStackChar (c : Char) : Bool :=
  c.isAlphanum || c = '_' || c = '-' || c = '.'

/-- First three statements of `utils.sanitize_for_openstack`: replace
spaces by underscores, drop characters outside `[a-zA-Z0-9_.-]`, strip
leading non-alphanumerics. -/
def sanitizeCore (name : String) : List Char :=
  ((name.data.map (fun c => if c = ' ' then '_' else c)).filter isOpenStackChar).dropWhile
    (fun c => !c.isAlphanum)

/-- Last two statements of `utils.sanitize_for_openstack`: put `project_`
in front of an all-digit result (`str.isdigit`, false on the empty
string) and fall back to a fixed literal for an empty result. -/
def sanitizeFinish (s3 : List Char) : String :=
  let s4 := if !s3.isEmpty && s3.all (fun c => c.isDigit) then "project_".data ++ s3 else s3
  if s4.isEmpty then "sanitizer_default_name" else String.mk s4

/-- Embedding of `utils.sanitize_for_openstack`, the composition of its
four sanitation statements. -/
def sanitize_for_openstack (name : String) : String :=
  sanitizeFinish (sanitizeCore name)

/-- Python exception values relevant to the embedded code paths; each
carries the result of `str(e)`. -/
inductive PyError where
  | backendError (msg : String)
  | keystoneClientError (msg : String)
  | valueError (msg : String)
  | unboundLocalError (msg : String)
deriving Repr, DecidableEq

/-- The `str(e)` of an exception, as used by f-string interpolation. -/
def PyError.message : PyError → String
  | .backendError m => m
  | .keystoneClientError m => m
  | .valueError m => m
  | .unboundLocalError m => m

/-- Embedding of `utils.validate_backend_id` (the `isinstance` branch is
vacuous in a typed embedding). -/
def validate_backend_id (backend_id : String) (resource_type : String) : Except PyError Bool :=
  if backend_id = "" then
    .error (.valueError ("Backend ID validation ressource: " ++ resource_type ++ " backend_id cannot be empty"))
  else if backend_id.length > 255 then
    .error (.valueError (resource_type ++ " backend_id is too long (max 255 characters)"))
  else
    .ok true

/-- ASCII whitespace recognised by Python's `str.strip()` (exotic Unicode
whitespace elided; no claim exercises it). -/
def pyIsSpace (c : Char) : Bool :=
  c = ' ' || c = '\t' || c = '\n' || c = '\r' || c = '\x0b' || c = '\x0c'

/-- The guard `not s or not s.strip()`: true iff every character of `s` is
whitespace (in particular for the empty string). -/
def pyIsBlank (s : String) : Bool := s.data.all pyIsSpace

/-- Python truthiness of an optional string attribute (`hasattr` and
non-empty). -/
def pyTruthy : Option String → Bool
  | some v => v ≠ ""
  | none => false

/-- The value of an optional string attribute when it is truthy. -/
def optStr : Option String → String
  | some v => v
  | none => ""

/-- A Keystone role assignment: the ternary (user, project, role). -/
structure RoleAssignment where
  user : String
  project : String
  role : String
deriving Repr, DecidableEq

/-- The identity-service state: names present in the single configured
domain namespace, plus the role-assignment relation. -/
structure KState where
  domains : List String
  projects : List String
  users : List String
  roles : List String
  assignments : List RoleAssignment
deriving Repr, DecidableEq

/-- The configuration fields of `config.OpenStackConfig` that the embedded
operations read, with its defaults. -/
structure OpenStackConfig where
  domain_name : String := "Default"
  default_role : String := "_member_"
  create_users_if_not_exist : Bool := true
  sync_user_emails : Bool := true
  user_enabled_by_default : Bool := true
deriving Repr, DecidableEq

/-- Result of an operation that may raise: either a value or an exception,
each together with the identity-service state at return/raise time. -/
abbrev Res (α : Type) := Except (PyError × KState) (α × KState)

/-- Equality of results is decidable, so witnesses can be checked by
evaluation. -/
instance {ε α : Type} [DecidableEq ε] [DecidableEq α] : DecidableEq (Except ε α) := fun a b =>
  match a, b with
  | .ok x, .ok y =>
    if h : x = y then .isTrue (by rw [h]) else .isFalse (by intro e; cases e; exact h rfl)
  | .error x, .error y =>
    if h : x = y then .isTrue (by rw [h]) else .isFalse (by intro e; cases e; exact h rfl)
  | .ok _, .error _ => .isFalse (by intro e; cases e)
  | .error _, .ok _ => .isFalse (by intro e; cases e)

/-- The state an operation left behind, on either channel. -/
def resState {α : Type} : Res α → KState
  | .ok (_, s) => s
  | .error (_, s) => s

/-- Whether an operation returned normally. -/
def resOk {α : Type} : Res α → Bool
  | .ok _ => true
  | .error _ => false

/-- KeystoneClient.get_domain: list-by-name and first-or-none; any
unexpected error (`err`) is logged and absence returned. -/
def get_domain (s : KState) (err : Bool) (name : String) : Option String :=
  if err then none
  else if s.domains.contains name then some name else none

/-- KeystoneClient.get_project: list-by-name within the configured domain
and first-or-none; any unexpected error is logged and absence returned. -/
def get_project (s : KState) (err : Bool) (name : String) : Option String :=
  if err then none
  else if s.projects.contains name then some name else none

/-- KeystoneClient.get_user: list-by-name and first-or-none; any
unexpected error is logged and absence returned. -/
def get_user (s : KState) (err : Bool) (name : String) : Option String :=
  if err then none
  else if s.users.contains name then some name else none

/-- KeystoneClient.get_role: list-by-name and first-or-none; any
unexpected error is logged and absence returned. -/
def get_role (s : KState) (err : Bool) (name : String) : Option String :=
  if err then none
  else if s.roles.contains name then some name else none

/-- KeystoneClient.get_resource / OpenStackClient.get_resource: the project
lookup behind membership sync (the info-dict projection is elided, the
project is represented by its name). -/
def get_resource (s : KState) (resource_backend_id : String) : Option String :=
  get_project s false resource_backend_id

/-- KeystoneClient.ensure_domain: get-or-create; a creation conflict is
resolved by a follow-up lookup, so in the sequential model creation
succeeds exactly when the domain is absent. -/
def ensure_domain (s : KState) (name : String) : String × KState :=
  match get_domain s false name with
  | some d => (d, s)
  | none => (name, { s with domains := name :: s.domains })

/-- KeystoneClient.create_project: ensure the configured domain, then
create; a name conflict is resolved by returning the existing project. -/
def create_project (cfg : OpenStackConfig) (s : KState) (project_name : String) : String × KState :=
  let s1 := (ensure_domain s cfg.domain_name).2
  if s1.projects.contains project_name then (project_name, s1)
  else (project_name, { s1 with projects := project_name :: s1.projects })

/-- KeystoneClient.delete_project: lookup then delete; absence yields
`false` rather than an error. -/
def delete_project (s : KState) (project_name : String) : Bool × KState :=
  match get_project s false project_name with
  | none => (false, s)
  | some _ => (true, { s with projects := s.projects.erase project_name })

/-- KeystoneClient.ensure_user: get-or-create (the email-update branch is
inert here because membership sync calls it without an email); when
auto-creation is disabled a missing user raises KeystoneClientError. -/
def ensure_user (cfg : OpenStackConfig) (s : KState) (username : String) : Res String :=
  match get_user s false username with
  | some u => .ok (u, s)
  | none =>
    if cfg.create_users_if_not_exist then
      let s1 := (ensure_domain s cfg.domain_name).2
      .ok (username, { s1 with users := username :: s1.users })
    else
      .error (.keystoneClientError ("User " ++ username ++ " not found and auto-creation disabled"), s)

/-- KeystoneClient.ensure_role: get-or-create role by name. -/
def ensure_role (s : KState) (role_name : String) : String × KState :=
  if s.roles.contains role_name then (role_name, s)
  else (role_name, { s with roles := role_name :: s.roles })

/-- KeystoneClient.assign_role: ensure the role then grant; an
already-granted conflict counts as success, an unexpected grant failure
(`grantFails`) is logged and yields `false`. -/
def assign_role (grantFails : Bool) (s : KState) (user project role_name : String) : Bool × KState :=
  let s1 := (ensure_role s role_name).2
  if grantFails then (false, s1)
  else if s1.assignments.contains ⟨user, project, role_name⟩ then (true, s1)
  else (true, { s1 with assignments := ⟨user, project, role_name⟩ :: s1.assignments })

/-- Whether an assignment belongs to the given (user, project) pair. -/
def matchesUserProject (user project : String) (a : RoleAssignment) : Bool :=
  a.user == user && a.project == project

/-- KeystoneClient.revoke_all_project_roles: list the assignments of the
(user, project) pair and revoke each in turn; a failed revoke
(`revokeFails` on that role) flips the overall flag but the loop
continues. -/
def revoke_all_project_roles (revokeFails : String → Bool) (s : KState) (user project : String) :
    Bool × KState :=
  let assigns := s.assignments.filter (matchesUserProject user project)
  if assigns.isEmpty then (true, s)
  else
    assigns.foldl
      (fun acc a =>
        if revokeFails a.role then (false, acc.2)
        else (acc.1, { acc.2 with assignments := acc.2.assignments.erase a }))
      (true, s)

/-- OpenStackClient.create_association: look the project up (creating it
when absent), ensure the user, grant the default role; a failed grant
raises, and the handler re-wraps every exception in KeystoneClientError. -/
def create_association (grantFails : Bool) (cfg : OpenStackConfig) (s : KState)
    (username resource_id : String) : Res String :=
  let body : Res String :=
    let pr :=
      match get_project s false resource_id with
      | some p => (p, s)
      | none => create_project cfg s resource_id
    match ensure_user cfg pr.2 username with
    | .error (e, s2) => .error (e, s2)
    | .ok (user, s2) =>
      let ar := assign_role grantFails s2 user pr.1 cfg.default_role
      if ar.1 then
        .ok ("Successfully assigned role '" ++ cfg.default_role ++ "' to user '" ++ username
          ++ "' in project '" ++ resource_id ++ "'", ar.2)
      else
        .error (.keystoneClientError ("Failed to assign role to user '" ++ username
          ++ "' in project '" ++ resource_id ++ "'"), ar.2)
  match body with
  | .ok r => .ok r
  | .error (e, se) =>
    .error (.keystoneClientError ("Failed to create association for user '" ++ username
      ++ "' in project '" ++ resource_id ++ "': " ++ e.message), se)

/-- OpenStackClient.delete_association: missing project or missing user
return a message instead of raising; otherwise every role of the pair is
revoked and a failed revoke raises, re-wrapped by the handler. -/
def delete_association (revokeFails : String → Bool) (s : KState)
    (username resource_id : String) : Res String :=
  let body : Res String :=
    match get_project s false resource_id with
    | none => .ok ("Project '" ++ resource_id ++ "' not found", s)
    | some project =>
      match get_user s false username with
      | none => .ok ("User '" ++ username ++ "' not found", s)
      | some user =>
        let rr := revoke_all_project_roles revokeFails s user project
        if rr.1 then
          .ok ("Successfully revoked all roles from user '" ++ username ++ "' in project '"
            ++ resource_id ++ "'", rr.2)
        else
          .error (.keystoneClientError ("Failed to revoke roles from user '" ++ username
            ++ "' in project '" ++ resource_id ++ "'"), rr.2)
  match body with
  | .ok r => .ok r
  | .error (e, se) =>
    .error (.keystoneClientError ("Failed to delete association for user '" ++ username
      ++ "' from project '" ++ resource_id ++ "': " ++ e.message), se)

/-- The message of the UnboundLocalError Python raises when the except
handlers of add_users_to_resource / remove_users_from_resource format
`project_name` on a path where it was never assigned. -/
def unbound_project_name_msg : String :=
  "local variable 'project_name' referenced before assignment"

/-- The BackendError message raised inside add_users_to_resource when the
target project is absent. -/
def add_users_not_found_msg (project_name : String) : String :=
  "Project " ++ project_name ++ " not found in OpenStack! Projects should be created via "
    ++ "_pre_create_resource(), not here. Skipping user sync."

/-- The wrapping applied by add_users_to_resource's except handler. -/
def add_users_wrap_msg (project_name inner : String) : String :=
  "Error adding users to project [" ++ project_name ++ "]: " ++ inner

/-- OpenStackBackend.add_users_to_resource: blank backend id returns the
empty set; an invalid id makes validate_backend_id raise, and the except
handler then trips over the unassigned `project_name` local; a missing
project raises a wrapped not-found BackendError; otherwise each user is
granted the default role with per-item failures caught and excluded. -/
def add_users_to_resource (grantFails : String → Bool) (cfg : OpenStackConfig) (s : KState)
    (resource_backend_id : String) (user_ids : List String) : Res (List String) :=
  if pyIsBlank resource_backend_id then .ok ([], s)
  else
    match validate_backend_id resource_backend_id "waldur_managed_project" with
    | .error _ => .error (.unboundLocalError unbound_project_name_msg, s)
    | .ok _ =>
      let project_name := sanitize_for_openstack resource_backend_id
      match get_resource s project_name with
      | none =>
        .error (.backendError (add_users_wrap_msg project_name
          (add_users_not_found_msg project_name)), s)
      | some _ =>
        let r := user_ids.foldl
          (fun (acc : List String × KState) uid =>
            match create_association (grantFails uid) cfg acc.2 uid project_name with
            | .ok (_, s2) => (acc.1 ++ [uid], s2)
            | .error (_, s2) => (acc.1, s2))
          ([], s)
        .ok r

/-- OpenStackBackend.remove_users_from_resource: blank backend id or a
missing project return the empty list; an invalid id makes
validate_backend_id raise, and the except handler then trips over the
unassigned `project_name` local; otherwise every role of each user is
revoked with per-item failures caught and excluded. -/
def remove_users_from_resource (revokeFails : String → Bool) (s : KState)
    (resource_backend_id : String) (usernames : List String) : Res (List String) :=
  if pyIsBlank resource_backend_id then .ok ([], s)
  else
    match validate_backend_id resource_backend_id "waldur_managed_project" with
    | .error _ => .error (.unboundLocalError unbound_project_name_msg, s)
    | .ok _ =>
      let project_name := sanitize_for_openstack resource_backend_id
      match get_resource s project_name with
      | none => .ok ([], s)
      | some _ =>
        let r := usernames.foldl
          (fun (acc : List String × KState) uname =>
            match delete_association revokeFails acc.2 uname project_name with
            | .ok (_, s2) => (acc.1 ++ [uname], s2)
            | .error (_, s2) => (acc.1, s2))
          ([], s)
        .ok r

/-- The attributes of the inbound Waldur resource object that the embedded
methods read. -/
structure WaldurResource where
  uuid : Option String
  backend_id : Option String
  name : Option String
  description : Option String
deriving Repr, DecidableEq

/-- The BackendError message for a missing resource uuid. -/
def missing_uuid_msg : String :=
  "Cannot create resource: waldur_resource.uuid is missing. UUID is required as the stable "
    ++ "backend_id for OpenStack project naming."

/-- The description derived from the resource: display name first, then
description, then the generic fallback. -/
def resource_description (r : WaldurResource) : String :=
  if pyTruthy r.name then "Waldur: " ++ optStr r.name
  else if pyTruthy r.description then optStr r.description
  else "Waldur managed project"

/-- OpenStackBackend._create_resource_in_backend: require a uuid, validate
it, sanitize it into the project name; an existing project short-circuits
to the same backend id; otherwise the project is created.  A ValueError
from validation is wrapped in BackendError by the handler. -/
def create_resource_in_backend (cfg : OpenStackConfig) (s : KState) (r : WaldurResource) :
    Res String :=
  if !pyTruthy r.uuid then .error (.backendError missing_uuid_msg, s)
  else
    let backend_id := optStr r.uuid
    match validate_backend_id backend_id "waldur_managed_project" with
    | .error e => .error (.backendError ("Failed to create OpenStack project: " ++ e.message), s)
    | .ok _ =>
      let project_name := sanitize_for_openstack backend_id
      match get_project s false project_name with
      | some _ => .ok (backend_id, s)
      | none =>
        let cp := create_project cfg s project_name
        .ok (backend_id, cp.2)

/-- OpenStackBackend._extract_backend_id: the stored backend id when
truthy, else the uuid, else the empty string. -/
def extract_backend_id (r : WaldurResource) : String :=
  if pyTruthy r.backend_id then optStr r.backend_id
  else if pyTruthy r.uuid then optStr r.uuid
  else ""

/-- OpenStackBackend.delete_resource: blank backend id is a silent no-op;
an invalid id makes validate_backend_id raise, wrapped in BackendError by
the handler (which here mentions no unassigned local); otherwise the
project is deleted, absence being reported as a message, not an error. -/
def delete_resource (s : KState) (r : WaldurResource) : Res Unit :=
  let backend_id := extract_backend_id r
  if pyIsBlank backend_id then .ok ((), s)
  else
    match validate_backend_id backend_id "waldur_managed_project" with
    | .error e => .error (.backendError ("Error deleting project: " ++ e.message), s)
    | .ok _ =>
      let project_name := sanitize_for_openstack backend_id
      let dp := delete_project s project_name
      .ok ((), dp.2)

/-- Core loop of `utils.retry_on_exception`: run attempt number `attempt`
with `fuel` retries left; after a failure with fuel remaining, sleep
`min(base_delay * exponential_base ^ (attempt - 1), max_delay)` and retry;
with no fuel the last exception is re-raised unchanged.  The returned list
collects the delays slept, in order. -/
def retryGo {E A : Type} (op : ℕ → Except E A) (base_delay max_delay exponential_base : ℚ)
    (attempt fuel : ℕ) : Except E A × List ℚ :=
  match op attempt with
  | .ok v => (.ok v, [])
  | .error e =>
    match fuel with
    | 0 => (.error e, [])
    | f + 1 =>
      let d := min (base_delay * exponential_base ^ (attempt - 1)) max_delay
      let r := retryGo op base_delay max_delay exponential_base (attempt + 1) f
      (r.1, d :: r.2)

/-- Embedding of `utils.retry_on_exception`: attempts are numbered from 1
and at most `max_attempts` calls of `op` are made. -/
def retry_on_exception {E A : Type} (max_attempts : ℕ)
    (base_delay max_delay exponential_base : ℚ) (op : ℕ → Except E A) :
    Except E A × List ℚ :=
  retryGo op base_delay max_delay exponential_base 1 (max_attempts - 1)

/-- A demonstration operation for the retry witness: attempts 1 and 2
fail, attempt 3 returns 42. -/
def retryDemoOp : ℕ → Except String ℕ :=
  fun n => if n < 3 then .error ("fail" ++ toString n) else .ok 42

/-- An empty identity-service state. -/
def emptyK : KState :=
  { domains := [], projects := [], users := [], roles := [], assignments := [] }

/-- A state holding the single project "proj1" used by membership
witnesses. -/
def stateProj1 : KState :=
  { domains := ["Default"], projects := ["proj1"], users := [], roles := [], assignments := [] }

/-- The configuration with all source defaults. -/
def cfgDefault : OpenStackConfig := {}

/-- A grant-failure oracle that fails exactly the user "u2". -/
def grantFailsU2 : String → Bool := fun u => u == "u2"

/-- An oracle under which no underlying call fails. -/
def noFail : String → Bool := fun _ => false

/-- A backend id of 256 identical characters, one over the validation
limit. -/
def longId : String := String.mk (List.replicate 256 'a')

/-- A fresh inbound resource carrying only a uuid and a display name. -/
def resAbc : WaldurResource :=
  { uuid := some "abc-123", backend_id := none, name := some "My Proj", description := none }

/-- The state after resAbc has been provisioned into emptyK. -/
def stateAbc : KState :=
  { domains := ["Default"], projects := ["abc-123"], users := [], roles := [], assignments := [] }

/-- A resource whose stored backend id is longId (used for delete). -/
def resLong : WaldurResource :=
  { uuid := none, backend_id := some longId, name := none, description := none }

/-- A state holding "proj1" and one assignment of alice, used by the
revoke-all witness. -/
def stateAlice : KState :=
  { domains := ["Default"], projects := ["proj1"], users := ["alice"], roles := ["_member_"],
    assignments := [⟨"alice", "proj1", "_member_"⟩] }


/-! Helper lemmas about the sanitizer. -/

theorem map_space_eq_self {l : List Char} (h : ∀ c ∈ l, isOpenStackChar c = true) :
    l.map (fun c => if c = ' ' then '_' else c) = l := by
  induction l with
  | nil => rfl
  | cons a as ih =>
    have ha := h a (List.mem_cons_self a as)
    have hne : a ≠ ' ' := by
      intro e
      subst e
      exact absurd ha (by decide)
    simp only [List.map_cons, if_neg hne, ih (fun c hc => h c (List.mem_cons_of_mem a hc))]

theorem dropWhile_head_false {α : Type} {p : α → Bool} :
    ∀ (l : List α) {c : α} {cs : List α}, l.dropWhile p = c :: cs → p c = false := by
  intro l
  induction l with
  | nil => intro c cs h; simp [List.dropWhile] at h
  | cons a as ih =>
    intro c cs h
    rw [List.dropWhile_cons] at h
    by_cases hp : p a = true
    · rw [if_pos hp] at h
      exact ih h
    · rw [if_neg hp] at h
      cases h
      exact Bool.eq_false_iff.mpr hp

theorem sanitizeCore_allowed (s : String) : ∀ x ∈ sanitizeCore s, isOpenStackChar x = true := by
  intro x hx
  unfold sanitizeCore at hx
  exact (List.mem_filter.mp ((List.dropWhile_sublist _).subset hx)).2

theorem sanitizeCore_head {s : String} {c : Char} {cs : List Char}
    (h : sanitizeCore s = c :: cs) : c.isAlphanum = true := by
  have := dropWhile_head_false _ h
  simpa using this

theorem sanitizeFinish_nil : sanitizeFinish [] = "sanitizer_default_name" := rfl

theorem sanitizeFinish_digits {c : Char} {cs : List Char}
    (hd : (c :: cs).all Char.isDigit = true) :
    sanitizeFinish (c :: cs) = String.mk ("project_".data ++ (c :: cs)) := by
  unfold sanitizeFinish
  have hcond : (!(c :: cs).isEmpty && (c :: cs).all (fun x => x.isDigit)) = true := by
    simpa using hd
  rw [hcond]
  rfl

theorem sanitizeFinish_mixed {c : Char} {cs : List Char}
    (hd : (c :: cs).all Char.isDigit = false) :
    sanitizeFinish (c :: cs) = String.mk (c :: cs) := by
  unfold sanitizeFinish
  have hcond : (!(c :: cs).isEmpty && (c :: cs).all (fun x => x.isDigit)) = false := by
    simpa using hd
  rw [hcond]
  rfl

theorem sanitize_shape (s : String) :
    ∃ c cs, (sanitize_for_openstack s).data = c :: cs ∧ c.isAlphanum = true ∧
      (∀ x ∈ (sanitize_for_openstack s).data, isOpenStackChar x = true) ∧
      (sanitize_for_openstack s).data.all Char.isDigit = false := by
  unfold sanitize_for_openstack
  cases hL : sanitizeCore s with
  | nil =>
    rw [sanitizeFinish_nil]
    exact ⟨'s', "anitizer_default_name".data, by decide, by decide, by decide, by decide⟩
  | cons c cs =>
    have hc : c.isAlphanum = true := sanitizeCore_head hL
    have hmem : ∀ x ∈ c :: cs, isOpenStackChar x = true := by
      intro x hx
      exact sanitizeCore_allowed s x (hL ▸ hx)
    by_cases hd : (c :: cs).all Char.isDigit = true
    · rw [sanitizeFinish_digits hd]
      have hdata : (String.mk ("project_".data ++ (c :: cs))).data = "project_".data ++ (c :: cs) :=
        rfl
      simp only [hdata]
      have hpre : ∀ x ∈ "project_".data, isOpenStackChar x = true := by decide
      refine ⟨'p', "roject_".data ++ (c :: cs), rfl, by decide, ?_, ?_⟩
      · intro x hx
        rcases List.mem_append.mp hx with hx | hx
        · exact hpre x hx
        · exact hmem x hx
      · apply Bool.eq_false_iff.mpr
        intro hall
        have hp := List.all_eq_true.mp hall 'p' (List.mem_append.mpr (Or.inl (by decide)))
        exact absurd hp (by decide)
    · rw [sanitizeFinish_mixed (Bool.eq_false_iff.mpr hd)]
      exact ⟨c, cs, rfl, hc, hmem, Bool.eq_false_iff.mpr hd⟩

theorem sanitizeCore_fixpoint {c : Char} {cs : List Char}
    (hall : ∀ x ∈ c :: cs, isOpenStackChar x = true) (hc : c.isAlphanum = true) :
    sanitizeCore (String.mk (c :: cs)) = c :: cs := by
  unfold sanitizeCore
  rw [show (String.mk (c :: cs)).data = c :: cs from rfl, map_space_eq_self hall,
    List.filter_eq_self.mpr hall, List.dropWhile_cons]
  rw [if_neg (by simp [hc])]

theorem sanitize_fixpoint {c : Char} {cs : List Char}
    (hall : ∀ x ∈ c :: cs, isOpenStackChar x = true) (hc : c.isAlphanum = true)
    (hdig : (c :: cs).all Char.isDigit = false) :
    sanitize_for_openstack (String.mk (c :: cs)) = String.mk (c :: cs) := by
  unfold sanitize_for_openstack
  rw [sanitizeCore_fixpoint hall hc, sanitizeFinish_mixed hdig]

/-- C2: the identifier sanitizer is total (a plain function of the input
string), idempotent, and its result is never empty, always starts with an
alphanumeric character, and is never purely numeric.  The defining
equations of `sanitize_for_openstack` are the four sanitation statements
of the source (space replacement, character strip, leading strip, digit
prefix, empty fallback). -/
theorem sanitize_for_openstack_total_idempotent (s : String) :
    sanitize_for_openstack (sanitize_for_openstack s) = sanitize_for_openstack s ∧
    sanitize_for_openstack s ≠ "" ∧
    (∃ c cs, (sanitize_for_openstack s).data = c :: cs ∧ c.isAlphanum = true) ∧
    (sanitize_for_openstack s).data.all Char.isDigit = false := by
  obtain ⟨c, cs, hdata, hc, hall, hdig⟩ := sanitize_shape s
  have hmk : String.mk (sanitize_for_openstack s).data = sanitize_for_openstack s := rfl
  refine ⟨?_, ?_, ⟨c, cs, hdata, hc⟩, hdig⟩
  · have hall2 : ∀ x ∈ c :: cs, isOpenStackChar x = true := fun x hx => hall x (hdata ▸ hx)
    have hdig2 : (c :: cs).all Char.isDigit = false := hdata ▸ hdig
    calc sanitize_for_openstack (sanitize_for_openstack s)
        = sanitize_for_openstack (String.mk (c :: cs)) := by rw [← hmk, hdata]
      _ = String.mk (c :: cs) := sanitize_fixpoint hall2 hc hdig2
      _ = sanitize_for_openstack s := by rw [← hdata, hmk]
  · intro h
    rw [h] at hdata
    exact List.noConfusion hdata

/-- C7: every gateway lookup totalises failure into absence: under an
unexpected underlying error the result is `none`, and when the looked-up
name is absent the result is `none` as well, so the two cases are
indistinguishable to callers; by construction (`Option` result) none of
the four lookups can raise. -/
theorem gateway_lookup_absence (s : KState) (name : String) :
    get_project s true name = none ∧
    (s.projects.contains name = false → get_project s false name = none) ∧
    get_user s true name = none ∧
    (s.users.contains name = false → get_user s false name = none) ∧
    get_role s true name = none ∧
    (s.roles.contains name = false → get_role s false name = none) ∧
    get_domain s true name = none ∧
    (s.domains.contains name = false → get_domain s false name = none) := by
  refine ⟨rfl, fun h => ?_, rfl, fun h => ?_, rfl, fun h => ?_, rfl, fun h => ?_⟩ <;>
  · simp [get_project, get_user, get_role, get_domain]
    simpa using h

/-- Witness for C7 at a concrete state and name. -/
theorem gateway_lookup_absence_witness :
    get_project emptyK true "p" = none ∧ get_project emptyK false "p" = none := by
  have h := gateway_lookup_absence emptyK "p"
  exact ⟨h.1, h.2.1 (by decide)⟩

/-! Helper lemmas about the retry loop. -/

theorem retryGo_ok {E A : Type} (op : ℕ → Except E A) (base maxD expB : ℚ) (v : A) :
    ∀ (j attempt fuel : ℕ), j ≤ fuel →
      (∀ i, i < j → ∃ e, op (attempt + i) = .error e) →
      op (attempt + j) = .ok v →
      retryGo op base maxD expB attempt fuel =
        (.ok v, (List.range j).map (fun i => min (base * expB ^ (attempt + i - 1)) maxD)) := by
  intro j
  induction j with
  | zero =>
    intro attempt fuel _ _ hok
    rw [Nat.add_zero] at hok
    unfold retryGo
    rw [hok]
    simp
  | succ j ih =>
    intro attempt fuel hle hfail hok
    obtain ⟨e0, he0⟩ := hfail 0 (Nat.succ_pos j)
    rw [Nat.add_zero] at he0
    obtain ⟨f, rfl⟩ : ∃ f, fuel = f + 1 := ⟨fuel - 1, by omega⟩
    have hrec := ih (attempt + 1) f (by omega)
      (fun i hi => by
        have h := hfail (i + 1) (by omega)
        rwa [show attempt + (i + 1) = attempt + 1 + i by ring] at h)
      (by rwa [show attempt + 1 + j = attempt + (j + 1) by ring])
    unfold retryGo
    rw [he0]
    simp only [hrec]
    rw [List.range_succ_eq_map, List.map_cons, List.map_map]
    have harg : ∀ i : ℕ, attempt + 1 + i - 1 = attempt + Nat.succ i - 1 := by omega
    simp [Function.comp, harg]

theorem retryGo_err {E A : Type} (op : ℕ → Except E A) (base maxD expB : ℚ) :
    ∀ (fuel attempt : ℕ) (elast : E),
      (∀ i, i < fuel → ∃ e, op (attempt + i) = .error e) →
      op (attempt + fuel) = .error elast →
      retryGo op base maxD expB attempt fuel =
        (.error elast, (List.range fuel).map (fun i => min (base * expB ^ (attempt + i - 1)) maxD)) := by
  intro fuel
  induction fuel with
  | zero =>
    intro attempt elast _ herr
    rw [Nat.add_zero] at herr
    unfold retryGo
    rw [herr]
    simp
  | succ f ih =>
    intro attempt elast hfail herr
    obtain ⟨e0, he0⟩ := hfail 0 (Nat.succ_pos f)
    rw [Nat.add_zero] at he0
    have hrec := ih (attempt + 1) elast
      (fun i hi => by
        have h := hfail (i + 1) (by omega)
        rwa [show attempt + (i + 1) = attempt + 1 + i by ring] at h)
      (by rwa [show attempt + 1 + f = attempt + (f + 1) by ring])
    unfold retryGo
    rw [he0]
    simp only [hrec]
    rw [List.range_succ_eq_map, List.map_cons, List.map_map]
    have harg : ∀ i : ℕ, attempt + 1 + i - 1 = attempt + Nat.succ i - 1 := by omega
    simp [Function.comp, harg]

/-- C3: the retry wrapper's policy.  First part: when the first `j`
attempts fail and attempt `j+1` succeeds within the budget, the wrapper
returns the successful result and the delay slept before attempt `k`
(position `k-2` of the list) is `min(base_delay * exponential_base^(k-2),
max_delay)`.  Second part: when all `max_attempts` attempts fail, the
exception of the final attempt is propagated unchanged.  Third part: the
fail-fail-succeed scenario with `max_attempts = 3` returns the successful
result after delays `base_delay` and `base_delay * exponential_base`. -/
theorem retry_on_exception_policy {E A : Type} (base maxD expB : ℚ) (op : ℕ → Except E A)
    (maxA : ℕ) (hmax : 1 ≤ maxA) :
    (∀ (j : ℕ) (v : A), j + 1 ≤ maxA →
      (∀ i, 1 ≤ i → i ≤ j → ∃ e, op i = .error e) → op (j + 1) = .ok v →
      retry_on_exception maxA base maxD expB op =
        (.ok v, (List.range j).map (fun i => min (base * expB ^ i) maxD))) ∧
    (∀ elast : E, (∀ i, 1 ≤ i → i < maxA → ∃ e, op i = .error e) → op maxA = .error elast →
      retry_on_exception maxA base maxD expB op =
        (.error elast, (List.range (maxA - 1)).map (fun i => min (base * expB ^ i) maxD))) ∧
    (∀ v : A, maxA = 3 → (∃ e, op 1 = .error e) → (∃ e, op 2 = .error e) → op 3 = .ok v →
      base ≤ maxD → base * expB ≤ maxD →
      retry_on_exception maxA base maxD expB op = (.ok v, [base, base * expB]) ∧
      (retry_on_exception maxA base maxD expB op).2.sum = base + base * expB) := by
  have hexp : ∀ i : ℕ, 1 + i - 1 = i := fun i => by omega
  have part1 : ∀ (j : ℕ) (v : A), j + 1 ≤ maxA →
      (∀ i, 1 ≤ i → i ≤ j → ∃ e, op i = .error e) → op (j + 1) = .ok v →
      retry_on_exception maxA base maxD expB op =
        (.ok v, (List.range j).map (fun i => min (base * expB ^ i) maxD)) := by
    intro j v hj hfail hok
    unfold retry_on_exception
    have h := retryGo_ok op base maxD expB v j 1 (maxA - 1) (by omega)
      (fun i hi => by
        have := hfail (1 + i) (by omega) (by omega)
        rwa [show (1 + i : ℕ) = 1 + i from rfl])
      (by rwa [show (1 + j : ℕ) = j + 1 by ring])
    rw [h]
    simp [hexp]
  refine ⟨part1, ?_, ?_⟩
  · intro elast hfail herr
    unfold retry_on_exception
    have h := retryGo_err op base maxD expB (maxA - 1) 1 elast
      (fun i hi => hfail (1 + i) (by omega) (by omega))
      (by rw [show 1 + (maxA - 1) = maxA by omega]; exact herr)
    rw [h]
    simp [hexp]
  · intro v h3 h1 h2 hok hb1 hb2
    subst h3
    have h := part1 2 v (by norm_num)
      (fun i hi1 hi2 => by
        interval_cases i
        · exact h1
        · exact h2)
      hok
    have hlist : (List.range 2).map (fun i => min (base * expB ^ i) maxD) = [base, base * expB] := by
      simp [List.range_succ, min_eq_left, hb1, hb2]
    rw [hlist] at h
    refine ⟨h, ?_⟩
    rw [h]
    simp

/-- Witness for C3: the demonstration operation fails on attempts 1 and 2
and succeeds on attempt 3; with base delay 1, max delay 60 and exponential
base 2 the wrapper returns 42 after delays 1 and 2. -/
theorem retry_on_exception_policy_witness :
    retry_on_exception 3 (1 : ℚ) 60 2 retryDemoOp = (.ok 42, [1, 2]) ∧
    (retry_on_exception 3 (1 : ℚ) 60 2 retryDemoOp).2.sum = 1 + 1 * 2 := by
  have h := (retry_on_exception_policy (1 : ℚ) 60 2 retryDemoOp 3 (by norm_num)).2.2 42 rfl
    ⟨"fail1", rfl⟩ ⟨"fail2", rfl⟩ rfl (by norm_num) (by norm_num)
  refine ⟨?_, h.2⟩
  rw [h.1]
  norm_num

/-! Helper lemmas about the identity-service operations. -/

theorem ensure_domain_projects (s : KState) (n : String) :
    (ensure_domain s n).2.projects = s.projects := by
  unfold ensure_domain
  cases h : get_domain s false n <;> simp

theorem ensure_user_projects (cfg : OpenStackConfig) (s : KState) (u : String) :
    (resState (ensure_user cfg s u)).projects = s.projects := by
  unfold ensure_user
  cases h : get_user s false u with
  | some v => rfl
  | none =>
    by_cases hc : cfg.create_users_if_not_exist = true
    · simp only [hc, if_true]
      show ({ (ensure_domain s cfg.domain_name).2 with
        users := u :: (ensure_domain s cfg.domain_name).2.users } : KState).projects = s.projects
      show (ensure_domain s cfg.domain_name).2.projects = s.projects
      exact ensure_domain_projects s cfg.domain_name
    · simp only [Bool.not_eq_true] at hc
      simp only [hc, Bool.false_eq_true, if_false]
      rfl

theorem ensure_user_ok (cfg : OpenStackConfig) (s : KState) (u : String)
    (hc : cfg.create_users_if_not_exist = true) :
    resOk (ensure_user cfg s u) = true := by
  unfold ensure_user
  cases h : get_user s false u with
  | some v => rfl
  | none => simp only [hc, if_true]; rfl

theorem assign_role_projects (gf : Bool) (s : KState) (u p rn : String) :
    (assign_role gf s u p rn).2.projects = s.projects := by
  unfold assign_role
  have h1 : (ensure_role s rn).2.projects = s.projects := by
    unfold ensure_role
    split <;> rfl
  split
  · exact h1
  · dsimp only
    split
    · exact h1
    · exact h1

theorem assign_role_fst (gf : Bool) (s : KState) (u p rn : String) :
    (assign_role gf s u p rn).1 = !gf := by
  unfold assign_role
  cases gf with
  | true => rfl
  | false => simp only [Bool.false_eq_true, if_false, Bool.not_false]; split <;> rfl

theorem get_resource_some {s : KState} {pn x : String} (h : get_resource s pn = some x) :
    s.projects.contains pn = true := by
  unfold get_resource get_project at h
  by_cases hc : s.projects.contains pn = true
  · exact hc
  · simp [hc] at h
    simpa using h.1

theorem create_association_projects (gf : Bool) (cfg : OpenStackConfig) (s : KState)
    (u rid : String) (hp : s.projects.contains rid = true) :
    (resState (create_association gf cfg s u rid)).projects = s.projects := by
  unfold create_association
  simp only [get_project, hp, if_true, Bool.false_eq_true, if_false]
  cases hEU : ensure_user cfg s u with
  | error es =>
    obtain ⟨e, s2⟩ := es
    have h1 : (resState (ensure_user cfg s u)).projects = s.projects :=
      ensure_user_projects cfg s u
    rw [hEU] at h1
    exact h1
  | ok vs =>
    obtain ⟨user, s2⟩ := vs
    have h1 : (resState (ensure_user cfg s u)).projects = s.projects :=
      ensure_user_projects cfg s u
    rw [hEU] at h1
    simp only [resState] at h1
    have h2 := assign_role_projects gf s2 user rid cfg.default_role
    by_cases har : (assign_role gf s2 user rid cfg.default_role).1 = true <;>
      simp [har, resState, h2, h1]

theorem create_association_ok (gf : Bool) (cfg : OpenStackConfig) (s : KState)
    (u rid : String) (hp : s.projects.contains rid = true)
    (hc : cfg.create_users_if_not_exist = true) :
    resOk (create_association gf cfg s u rid) = !gf := by
  unfold create_association
  simp only [get_project, hp, if_true, Bool.false_eq_true, if_false]
  cases hEU : ensure_user cfg s u with
  | error es =>
    have h1 := ensure_user_ok cfg s u hc
    rw [hEU] at h1
    exact absurd h1 (by simp [resOk])
  | ok vs =>
    obtain ⟨user, s2⟩ := vs
    have har := assign_role_fst gf s2 user rid cfg.default_role
    cases gf with
    | true => simp [har, resOk]
    | false => simp [har, resOk]

theorem add_users_fold_projects (gf : String → Bool) (cfg : OpenStackConfig) (pn : String) :
    ∀ (uids : List String) (acc : List String × KState),
      acc.2.projects.contains pn = true →
      ((uids.foldl
          (fun (acc : List String × KState) uid =>
            match create_association (gf uid) cfg acc.2 uid pn with
            | .ok (_, s2) => (acc.1 ++ [uid], s2)
            | .error (_, s2) => (acc.1, s2))
          acc).2).projects = acc.2.projects := by
  intro uids
  induction uids with
  | nil => intro acc _; rfl
  | cons u rest ih =>
    intro acc h
    rw [List.foldl_cons]
    cases hca : create_association (gf u) cfg acc.2 u pn with
    | ok ms =>
      obtain ⟨m, s2⟩ := ms
      have hp : s2.projects = acc.2.projects := by
        have hh := create_association_projects (gf u) cfg acc.2 u pn h
        rw [hca] at hh
        exact hh
      simp only [hca]
      rw [ih (acc.1 ++ [u], s2) (by dsimp only; rw [hp]; exact h)]
      exact hp
    | error es =>
      obtain ⟨e, s2⟩ := es
      have hp : s2.projects = acc.2.projects := by
        have hh := create_association_projects (gf u) cfg acc.2 u pn h
        rw [hca] at hh
        exact hh
      simp only [hca]
      rw [ih (acc.1, s2) (by dsimp only; rw [hp]; exact h)]
      exact hp

theorem add_users_fold_filter (gf : String → Bool) (cfg : OpenStackConfig) (pn : String)
    (hc : cfg.create_users_if_not_exist = true) :
    ∀ (uids : List String) (acc : List String × KState),
      acc.2.projects.contains pn = true →
      (uids.foldl
          (fun (acc : List String × KState) uid =>
            match create_association (gf uid) cfg acc.2 uid pn with
            | .ok (_, s2) => (acc.1 ++ [uid], s2)
            | .error (_, s2) => (acc.1, s2))
          acc).1 = acc.1 ++ uids.filter (fun u => !gf u) := by
  intro uids
  induction uids with
  | nil => intro acc _; simp
  | cons u rest ih =>
    intro acc h
    rw [List.foldl_cons]
    cases hca : create_association (gf u) cfg acc.2 u pn with
    | ok ms =>
      obtain ⟨m, s2⟩ := ms
      have hp : s2.projects = acc.2.projects := by
        have hh := create_association_projects (gf u) cfg acc.2 u pn h
        rw [hca] at hh
        exact hh
      have hgf : gf u = false := by
        have hh := create_association_ok (gf u) cfg acc.2 u pn h hc
        rw [hca] at hh
        simp only [resOk] at hh
        cases hgu : gf u
        · rfl
        · rw [hgu] at hh
          exact absurd hh.symm (by decide)
      simp only [hca]
      rw [ih (acc.1 ++ [u], s2) (by dsimp only; rw [hp]; exact h)]
      simp [List.filter_cons, hgf, List.append_assoc]
    | error es =>
      obtain ⟨e, s2⟩ := es
      have hp : s2.projects = acc.2.projects := by
        have hh := create_association_projects (gf u) cfg acc.2 u pn h
        rw [hca] at hh
        exact hh
      have hgf : gf u = true := by
        have hh := create_association_ok (gf u) cfg acc.2 u pn h hc
        rw [hca] at hh
        simp only [resOk] at hh
        cases hgu : gf u
        · rw [hgu] at hh
          exact absurd hh.symm (by decide)
        · rfl
      simp only [hca]
      rw [ih (acc.1, s2) (by dsimp only; rw [hp]; exact h)]
      simp [List.filter_cons, hgf]

/-- C5 (amended claim's positive core as stated): per-item failure
isolation in add_users_to_resource.  With an existing target project and
user auto-creation on, the returned success set is exactly the set of
usernames whose grant did not fail: one username's grant failure is
caught, that username is excluded, all other usernames are still
processed, and no exception reaches the caller. -/
theorem add_users_per_item_isolation (gf : String → Bool) (cfg : OpenStackConfig) (s : KState)
    (bid : String) (uids : List String)
    (hblank : pyIsBlank bid = false) (hlen : bid.length ≤ 255)
    (hproj : s.projects.contains (sanitize_for_openstack bid) = true)
    (hc : cfg.create_users_if_not_exist = true) :
    ∃ out s2, add_users_to_resource gf cfg s bid uids = .ok (out, s2) ∧
      out = uids.filter (fun u => !gf u) := by
  have hne : bid ≠ "" := by
    intro h
    subst h
    exact absurd hblank (by decide)
  have hval : validate_backend_id bid "waldur_managed_project" = .ok true := by
    unfold validate_backend_id
    rw [if_neg hne, if_neg (Nat.not_lt.mpr hlen)]
  have hres : get_resource s (sanitize_for_openstack bid) = some (sanitize_for_openstack bid) := by
    unfold get_resource get_project
    simp only [Bool.false_eq_true, if_false, hproj, if_true]
  unfold add_users_to_resource
  rw [if_neg (by simp [hblank]), hval]
  dsimp only
  rw [hres]
  exact ⟨_, _, rfl,
    add_users_fold_filter gf cfg (sanitize_for_openstack bid) hc uids ([], s) hproj⟩

/-- Witness for C5: of three usernames where the grant for the second is
forced to fail, the other two are returned and the count added is 2. -/
theorem add_users_per_item_isolation_witness :
    ∃ out s2, add_users_to_resource grantFailsU2 cfgDefault stateProj1 "proj1" ["u1", "u2", "u3"]
      = .ok (out, s2) ∧ out = ["u1", "u3"] ∧ out.length = 2 := by
  obtain ⟨out, s2, heq, hout⟩ := add_users_per_item_isolation grantFailsU2 cfgDefault stateProj1
    "proj1" ["u1", "u2", "u3"] (by decide) (by decide) (by decide) (by decide)
  refine ⟨out, s2, heq, ?_, ?_⟩
  · rw [hout]
    decide
  · rw [hout]
    decide

/-- Counterexample for C4: the backend id " " (a single space) is
non-empty and its sanitized project name has no corresponding project,
yet add_users_to_resource returns an empty success set instead of failing
with a not-found error, because the guard treats a whitespace-only id
like an empty one. -/
theorem add_users_not_found_counterexample :
    (" " : String) ≠ "" ∧
    emptyK.projects.contains (sanitize_for_openstack " ") = false ∧
    add_users_to_resource noFail cfgDefault emptyK " " ["alice"] = .ok ([], emptyK) := by
  refine ⟨by decide, by decide, ?_⟩
  rfl

/-- C4 as amended: for a backend id that contains a non-whitespace
character and is at most 255 characters long, when the sanitized project
name has no corresponding project, add_users_to_resource fails with the
wrapped not-found BackendError and leaves the state untouched (zero role
grants, no project created); and membership sync never creates a project
under any circumstance: whatever the backend id and user list, the
project list of the resulting state is unchanged. -/
theorem add_users_no_project_amended (gf : String → Bool) (cfg : OpenStackConfig) (s : KState)
    (bid : String) (uids : List String)
    (hblank : pyIsBlank bid = false) (hlen : bid.length ≤ 255)
    (habs : s.projects.contains (sanitize_for_openstack bid) = false) :
    add_users_to_resource gf cfg s bid uids =
      .error (.backendError (add_users_wrap_msg (sanitize_for_openstack bid)
        (add_users_not_found_msg (sanitize_for_openstack bid))), s) ∧
    ∀ (bid2 : String) (uids2 : List String),
      (resState (add_users_to_resource gf cfg s bid2 uids2)).projects = s.projects := by
  constructor
  · have hne : bid ≠ "" := by
      intro h
      subst h
      exact absurd hblank (by decide)
    have hval : validate_backend_id bid "waldur_managed_project" = .ok true := by
      unfold validate_backend_id
      rw [if_neg hne, if_neg (Nat.not_lt.mpr hlen)]
    have hres : get_resource s (sanitize_for_openstack bid) = none := by
      unfold get_resource get_project
      simp only [Bool.false_eq_true, if_false, habs]
    unfold add_users_to_resource
    rw [if_neg (by simp [hblank]), hval]
    dsimp only
    rw [hres]
  · intro bid2 uids2
    unfold add_users_to_resource
    by_cases hb2 : pyIsBlank bid2 = true
    · rw [if_pos hb2]
      rfl
    · rw [if_neg hb2]
      cases hv2 : validate_backend_id bid2 "waldur_managed_project" with
      | error e => rfl
      | ok b =>
        dsimp only
        cases hr2 : get_resource s (sanitize_for_openstack bid2) with
        | none => rfl
        | some x =>
          dsimp only [resState]
          exact add_users_fold_projects gf cfg (sanitize_for_openstack bid2) uids2 ([], s)
            (get_resource_some hr2)

/-- Witness for the amended C4 at a concrete absent project. -/
theorem add_users_no_project_amended_witness :
    add_users_to_resource noFail cfgDefault emptyK "ghost" ["alice"] =
      .error (.backendError (add_users_wrap_msg "ghost" (add_users_not_found_msg "ghost")),
        emptyK) ∧
    (resState (add_users_to_resource noFail cfgDefault emptyK " " ["alice"])).projects
      = emptyK.projects := by
  have h := add_users_no_project_amended noFail cfgDefault emptyK "ghost" ["alice"]
    (by decide) (by decide) (by decide)
  constructor
  · have hs : sanitize_for_openstack "ghost" = "ghost" := by decide
    have h1 := h.1
    rw [hs] at h1
    exact h1
  · exact h.2 " " ["alice"]

set_option maxRecDepth 8192 in
/-- Counterexample for C6: a 256-character backend id is non-empty and has
no corresponding project, yet remove_users_from_resource raises (the
validation ValueError turns into an UnboundLocalError inside the except
handler) instead of returning the empty list. -/
theorem remove_users_long_id_counterexample :
    longId ≠ "" ∧
    emptyK.projects.contains (sanitize_for_openstack longId) = false ∧
    remove_users_from_resource noFail emptyK longId ["alice"] =
      .error (.unboundLocalError unbound_project_name_msg, emptyK) := by
  refine ⟨by decide, by decide, by decide⟩

/-- C6 as amended: remove_users_from_resource returns the empty list
without error and with no revocation (the state is unchanged) when the
backend id is blank, and likewise when the backend id is at most 255
characters, contains a non-whitespace character, and its sanitized
project does not exist; backend ids longer than 255 characters raise
instead. -/
theorem remove_users_vacuous_amended (rf : String → Bool) (s : KState) (bid : String)
    (usernames : List String) :
    (pyIsBlank bid = true → remove_users_from_resource rf s bid usernames = .ok ([], s)) ∧
    (pyIsBlank bid = false → bid.length ≤ 255 →
      s.projects.contains (sanitize_for_openstack bid) = false →
      remove_users_from_resource rf s bid usernames = .ok ([], s)) := by
  constructor
  · intro hb
    unfold remove_users_from_resource
    rw [if_pos hb]
  · intro hblank hlen habs
    have hne : bid ≠ "" := by
      intro h
      subst h
      exact absurd hblank (by decide)
    have hval : validate_backend_id bid "waldur_managed_project" = .ok true := by
      unfold validate_backend_id
      rw [if_neg hne, if_neg (Nat.not_lt.mpr hlen)]
    have hres : get_resource s (sanitize_for_openstack bid) = none := by
      unfold get_resource get_project
      simp only [Bool.false_eq_true, if_false, habs]
    unfold remove_users_from_resource
    rw [if_neg (by simp [hblank]), hval]
    dsimp only
    rw [hres]

/-- Witness for the amended C6: the empty backend id and a well-formed id
with no project both yield the empty list on the unchanged state. -/
theorem remove_users_vacuous_amended_witness :
    remove_users_from_resource noFail emptyK "" ["x"] = .ok ([], emptyK) ∧
    remove_users_from_resource noFail emptyK "ghost" ["x"] = .ok ([], emptyK) :=
  ⟨(remove_users_vacuous_amended noFail emptyK "" ["x"]).1 (by decide),
   (remove_users_vacuous_amended noFail emptyK "ghost" ["x"]).2 (by decide) (by decide)
     (by decide)⟩

set_option maxRecDepth 8192 in
/-- Counterexample for C9: on a 256-character backend id,
add_users_to_resource does fail, but with an UnboundLocalError escaping
the except handler (whose error message reads the never-assigned local
`project_name`), not with a wrapped backend error as claimed. -/
theorem backend_id_length_counterexample :
    longId.length = 256 ∧
    add_users_to_resource noFail cfgDefault emptyK longId ["alice"] =
      .error (.unboundLocalError unbound_project_name_msg, emptyK) := by
  constructor
  · decide
  · decide

/-- C9 as amended: for every backend id longer than 255 characters that
contains a non-whitespace character, validate_backend_id raises a
ValueError; delete_resource wraps it in a BackendError; but
add_users_to_resource and remove_users_from_resource abort with an
UnboundLocalError raised from inside their except handlers (the local
`project_name` is referenced before assignment there), not with a wrapped
backend error; in every case the state is unchanged, so no grant,
revocation or deletion is performed. -/
theorem backend_id_too_long_amended (gf rf : String → Bool) (cfg : OpenStackConfig) (s : KState)
    (bid : String) (uids unames : List String) (r : WaldurResource)
    (hlen : bid.length > 255) (hblank : pyIsBlank bid = false) :
    validate_backend_id bid "waldur_managed_project" =
      .error (.valueError ("waldur_managed_project backend_id is too long (max 255 characters)")) ∧
    add_users_to_resource gf cfg s bid uids =
      .error (.unboundLocalError unbound_project_name_msg, s) ∧
    remove_users_from_resource rf s bid unames =
      .error (.unboundLocalError unbound_project_name_msg, s) ∧
    (r.backend_id = some bid →
      delete_resource s r =
        .error (.backendError
          ("Error deleting project: waldur_managed_project backend_id is too long (max 255 characters)"), s)) := by
  have hne : bid ≠ "" := by
    intro h
    subst h
    simp [String.length] at hlen
  have hval : validate_backend_id bid "waldur_managed_project" =
      .error (.valueError ("waldur_managed_project backend_id is too long (max 255 characters)")) := by
    unfold validate_backend_id
    rw [if_neg hne, if_pos hlen]
    rfl
  refine ⟨hval, ?_, ?_, ?_⟩
  · unfold add_users_to_resource
    rw [if_neg (by simp [hblank]), hval]
  · unfold remove_users_from_resource
    rw [if_neg (by simp [hblank]), hval]
  · intro hrb
    have hex : extract_backend_id r = bid := by
      unfold extract_backend_id
      rw [hrb]
      rw [if_pos (by simp [pyTruthy, hne])]
      rfl
    unfold delete_resource
    rw [hex, if_neg (by simp [hblank]), hval]
    rfl

set_option maxRecDepth 8192 in
/-- Witness for the amended C9 at the concrete 256-character id. -/
theorem backend_id_too_long_amended_witness :
    validate_backend_id longId "waldur_managed_project" =
      .error (.valueError ("waldur_managed_project backend_id is too long (max 255 characters)")) ∧
    remove_users_from_resource noFail emptyK longId ["x"] =
      .error (.unboundLocalError unbound_project_name_msg, emptyK) ∧
    delete_resource emptyK resLong =
      .error (.backendError
        ("Error deleting project: waldur_managed_project backend_id is too long (max 255 characters)"),
        emptyK) := by
  have h := backend_id_too_long_amended noFail noFail cfgDefault emptyK longId ["x"] ["x"]
    resLong (by decide) (by decide)
  exact ⟨h.1, h.2.2.1, h.2.2.2 rfl⟩

/-- C10: when the target project exists but the requested username does
not exist in the identity service, delete_association returns a
"User not found" message instead of raising, and
remove_users_from_resource still reports that username as successfully
removed while the state is unchanged (no revocation was performed). -/
theorem remove_users_reports_missing_user (rf : String → Bool) (s : KState) (bid uname : String)
    (hblank : pyIsBlank bid = false) (hlen : bid.length ≤ 255)
    (hproj : s.projects.contains (sanitize_for_openstack bid) = true)
    (huser : s.users.contains uname = false) :
    delete_association rf s uname (sanitize_for_openstack bid) =
      .ok ("User '" ++ uname ++ "' not found", s) ∧
    remove_users_from_resource rf s bid [uname] = .ok ([uname], s) := by
  have hda : delete_association rf s uname (sanitize_for_openstack bid) =
      .ok ("User '" ++ uname ++ "' not found", s) := by
    unfold delete_association
    rw [show get_project s false (sanitize_for_openstack bid) = some (sanitize_for_openstack bid)
      by unfold get_project; simp only [Bool.false_eq_true, if_false, hproj, if_true]]
    dsimp only
    rw [show get_user s false uname = none
      by unfold get_user; simp only [Bool.false_eq_true, if_false, huser]]
  refine ⟨hda, ?_⟩
  have hne : bid ≠ "" := by
    intro h
    subst h
    exact absurd hblank (by decide)
  have hval : validate_backend_id bid "waldur_managed_project" = .ok true := by
    unfold validate_backend_id
    rw [if_neg hne, if_neg (Nat.not_lt.mpr hlen)]
  have hres : get_resource s (sanitize_for_openstack bid) = some (sanitize_for_openstack bid) := by
    unfold get_resource get_project
    simp only [Bool.false_eq_true, if_false, hproj, if_true]
  unfold remove_users_from_resource
  rw [if_neg (by simp [hblank]), hval]
  dsimp only
  rw [hres]
  dsimp only
  rw [List.foldl_cons, hda]
  rfl

/-- Witness for C10: removing the unknown user "ghost" from the existing
project "proj1" reports "ghost" as removed on the unchanged state. -/
theorem remove_users_reports_missing_user_witness :
    remove_users_from_resource noFail stateProj1 "proj1" ["ghost"] =
      .ok (["ghost"], stateProj1) :=
  (remove_users_reports_missing_user noFail stateProj1 "proj1" "ghost"
    (by decide) (by decide) (by decide) (by decide)).2

theorem get_project_none {s : KState} {pn : String} (h : get_project s false pn = none) :
    s.projects.contains pn = false := by
  unfold get_project at h
  simp only [Bool.false_eq_true, if_false] at h
  by_cases hc : s.projects.contains pn = true
  · rw [if_pos hc] at h
    cases h
  · exact Bool.eq_false_iff.mpr hc

theorem create_project_projects (cfg : OpenStackConfig) (s : KState) (pn : String)
    (habs : s.projects.contains pn = false) :
    (create_project cfg s pn).2.projects = pn :: s.projects := by
  unfold create_project
  have hd := ensure_domain_projects s cfg.domain_name
  dsimp only
  rw [if_neg (by rw [hd, habs]; simp)]
  show pn :: (ensure_domain s cfg.domain_name).2.projects = pn :: s.projects
  rw [hd]

/-- C1: idempotent resource creation.  Whenever a create call succeeds
with some backendId, the returned backendId is the resource uuid itself;
an immediately repeated call returns the very same backendId and leaves
the state exactly as it was (so no second identity-service creation
happens); when the sanitized project already existed the first call
already left the state untouched; and when it did not, the final state
holds exactly one project under the sanitized name. -/
theorem create_resource_idempotent (cfg : OpenStackConfig) (s : KState) (r : WaldurResource)
    (bid : String) (s1 : KState)
    (h : create_resource_in_backend cfg s r = .ok (bid, s1)) :
    r.uuid = some bid ∧
    create_resource_in_backend cfg s1 r = .ok (bid, s1) ∧
    (s.projects.contains (sanitize_for_openstack bid) = true → s1 = s) ∧
    (s.projects.contains (sanitize_for_openstack bid) = false →
      s1.projects.count (sanitize_for_openstack bid) = 1) := by
  unfold create_resource_in_backend at h
  by_cases ht : pyTruthy r.uuid = true
  case neg =>
    rw [if_pos (by simp only [Bool.not_eq_true] at ht; simp [ht])] at h
    cases h
  case pos =>
    rw [if_neg (by simp [ht])] at h
    dsimp only at h
    have huuid : ∀ {x : String}, optStr r.uuid = x → r.uuid = some x := by
      intro x hx
      cases hu : r.uuid with
      | none => rw [hu] at ht; exact absurd ht (by decide)
      | some v =>
        rw [hu] at hx
        simp only [optStr] at hx
        rw [hx]
    cases hv : validate_backend_id (optStr r.uuid) "waldur_managed_project" with
    | error e =>
      rw [hv] at h
      simp at h
    | ok b =>
      rw [hv] at h
      dsimp only at h
      cases hg : get_project s false (sanitize_for_openstack (optStr r.uuid)) with
      | some x =>
        rw [hg] at h
        simp only [Except.ok.injEq, Prod.mk.injEq] at h
        obtain ⟨h1, h2⟩ := h
        subst h2
        subst h1
        have hcont : s.projects.contains (sanitize_for_openstack (optStr r.uuid)) = true :=
          get_resource_some
            (show get_resource s (sanitize_for_openstack (optStr r.uuid)) = some x from hg)
        refine ⟨huuid rfl, ?_, fun _ => rfl, fun hcf => ?_⟩
        · unfold create_resource_in_backend
          rw [if_neg (by simp [ht])]
          dsimp only
          rw [hv]
          dsimp only
          rw [hg]
        · rw [hcont] at hcf
          cases hcf
      | none =>
        rw [hg] at h
        simp only [Except.ok.injEq, Prod.mk.injEq] at h
        obtain ⟨h1, h2⟩ := h
        subst h1
        have hcont : s.projects.contains (sanitize_for_openstack (optStr r.uuid)) = false :=
          get_project_none hg
        have hproj : s1.projects = sanitize_for_openstack (optStr r.uuid) :: s.projects := by
          rw [← h2]
          exact create_project_projects cfg s (sanitize_for_openstack (optStr r.uuid)) hcont
        refine ⟨huuid rfl, ?_, fun hct => ?_, fun _ => ?_⟩
        · unfold create_resource_in_backend
          rw [if_neg (by simp [ht])]
          dsimp only
          rw [hv]
          dsimp only
          rw [show get_project s1 false (sanitize_for_openstack (optStr r.uuid))
              = some (sanitize_for_openstack (optStr r.uuid)) by
            unfold get_project
            rw [hproj]
            simp]
        · rw [hcont] at hct
          cases hct
        · rw [hproj, List.count_cons_self]
          have hnm : sanitize_for_openstack (optStr r.uuid) ∉ s.projects := by
            intro hm
            rw [show s.projects.contains (sanitize_for_openstack (optStr r.uuid)) = true
              by simpa using hm] at hcont
            cases hcont
          rw [List.count_eq_zero.mpr hnm]

/-- Witness for C1: creating "abc-123" into the empty service yields
backendId "abc-123" and the provisioned state; the repeated call returns
the same backendId on the unchanged state, which holds exactly one
project of that name. -/
theorem create_resource_idempotent_witness :
    create_resource_in_backend cfgDefault stateAbc resAbc = .ok ("abc-123", stateAbc) ∧
    stateAbc.projects.count (sanitize_for_openstack "abc-123") = 1 := by
  have h0 : create_resource_in_backend cfgDefault emptyK resAbc = .ok ("abc-123", stateAbc) := by
    decide
  have h := create_resource_idempotent cfgDefault emptyK resAbc "abc-123" stateAbc h0
  exact ⟨h.2.1, h.2.2.2 (by decide)⟩

theorem revoke_fold (rf : String → Bool) :
    ∀ (A : List RoleAssignment) (b : Bool) (st : KState), st.assignments.Nodup →
      (A.foldl
        (fun acc a =>
          if rf a.role then (false, acc.2)
          else (acc.1, { acc.2 with assignments := acc.2.assignments.erase a }))
        (b, st)) =
      ((b && A.all (fun a => !rf a.role)),
        { st with assignments :=
            st.assignments.filter (fun x => !((A.filter (fun a => !rf a.role)).contains x)) }) := by
  intro A
  induction A with
  | nil =>
    intro b t _
    simp
  | cons a A ih =>
    intro b st hnd
    rw [List.foldl_cons]
    by_cases hra : rf a.role = true
    · rw [if_pos hra, ih false st hnd]
      simp [hra]
    · have hra' : rf a.role = false := Bool.eq_false_iff.mpr hra
      rw [if_neg hra]
      have ih2 := ih b ({ st with assignments := st.assignments.erase a }) (hnd.erase a)
      rw [ih2]
      dsimp only
      have hb : (b && A.all (fun z => !rf z.role)) = (b && (a :: A).all (fun z => !rf z.role)) := by
        simp [hra']
      have hfil : (st.assignments.erase a).filter
            (fun x => !((A.filter (fun z => !rf z.role)).contains x))
          = st.assignments.filter
            (fun x => !(((a :: A).filter (fun z => !rf z.role)).contains x)) := by
        rw [List.Nodup.erase_eq_filter hnd a, List.filter_filter]
        apply List.filter_congr
        intro x _
        have hcons : (a :: A).filter (fun z => !rf z.role)
            = a :: A.filter (fun z => !rf z.role) := by
          simp [List.filter_cons, hra']
        rw [hcons]
        by_cases hxa : x = a
        · subst hxa
          simp
        · simp [hxa]
      rw [hb, hfil]

/-- C8: revoke_all_project_roles lists the (user, project) assignments
and attempts every revoke independently.  The overall flag is true iff
every individual revoke succeeded (trivially true with no assignments,
where the state is returned untouched), and the remaining assignment
relation keeps exactly the pairs outside the target (user, project) plus
the target assignments whose revoke failed — so one failure does not
abort the revocation of the remaining assignments. -/
theorem revoke_all_project_roles_spec (rf : String → Bool) (s : KState) (u p : String)
    (hnd : s.assignments.Nodup) :
    (revoke_all_project_roles rf s u p).1
      = (s.assignments.filter (matchesUserProject u p)).all (fun a => !rf a.role) ∧
    (s.assignments.filter (matchesUserProject u p) = [] →
      revoke_all_project_roles rf s u p = (true, s)) ∧
    (revoke_all_project_roles rf s u p).2.assignments
      = s.assignments.filter (fun a => !matchesUserProject u p a || rf a.role) := by
  unfold revoke_all_project_roles
  dsimp only
  by_cases hA : (s.assignments.filter (matchesUserProject u p)).isEmpty = true
  · rw [if_pos hA]
    have hAe : s.assignments.filter (matchesUserProject u p) = [] := List.isEmpty_iff.mp hA
    refine ⟨by rw [hAe]; rfl, fun _ => rfl, ?_⟩
    symm
    apply List.filter_eq_self.mpr
    intro a ha
    by_cases hm : matchesUserProject u p a = true
    · exfalso
      have hmem : a ∈ s.assignments.filter (matchesUserProject u p) :=
        List.mem_filter.mpr ⟨ha, hm⟩
      rw [hAe] at hmem
      cases hmem
    · simp [Bool.eq_false_iff.mpr hm]
  · rw [if_neg hA]
    rw [revoke_fold rf (s.assignments.filter (matchesUserProject u p)) true s hnd]
    refine ⟨by simp, fun hAe => ?_, ?_⟩
    · rw [hAe] at hA
      exact absurd rfl hA
    · dsimp only
      apply List.filter_congr
      intro x hx
      by_cases hm : matchesUserProject u p x = true
      · by_cases hr : rf x.role = true
        · have hnin : x ∉ (s.assignments.filter (matchesUserProject u p)).filter
              (fun z => !rf z.role) := by
            intro hmem
            have := (List.mem_filter.mp hmem).2
            rw [hr] at this
            cases this
          simp [hnin, hm, hr]
        · have hin : x ∈ (s.assignments.filter (matchesUserProject u p)).filter
              (fun z => !rf z.role) := by
            apply List.mem_filter.mpr
            refine ⟨List.mem_filter.mpr ⟨hx, hm⟩, ?_⟩
            simp [Bool.eq_false_iff.mpr hr]
          simp [hin, hm, Bool.eq_false_iff.mpr hr, hx]
      · have hm' : matchesUserProject u p x = false := Bool.eq_false_iff.mpr hm
        have hnin : x ∉ (s.assignments.filter (matchesUserProject u p)).filter
            (fun z => !rf z.role) := by
          intro hmem
          have := (List.mem_filter.mp ((List.mem_filter.mp hmem).1)).2
          rw [hm'] at this
          cases this
        simp [hnin, hm']

/-- Witness for C8: in a state with the single assignment of alice on
proj1 and no forced failures, revoke-all succeeds and empties the
relation. -/
theorem revoke_all_project_roles_spec_witness :
    (revoke_all_project_roles noFail stateAlice "alice" "proj1").1 = true ∧
    (revoke_all_project_roles noFail stateAlice "alice" "proj1").2.assignments = [] := by
  have h := revoke_all_project_roles_spec noFail stateAlice "alice" "proj1" (by decide)
  constructor
  · rw [h.1]
    decide
  · rw [h.2.2]
    decide
